import Mathlib

/- Verification of the Lox bytecode interpreter core: a shallow embedding of
   the value model, compiler helpers and VM instruction semantics, with
   theorems settling the specification claims. Machine doubles are modelled
   as integers (the claims under study depend only on type dispatch and
   integer-valued arithmetic), heap addresses as indices into explicit heaps,
   and the C bool-returning helpers as Lean functions returning Bool. -/

set_option maxRecDepth 100000

namespace Lox

/-- InterpretResult from vm.h. -/
inductive InterpretResult where
  | ok
  | compileError
  | runtimeError
  deriving DecidableEq, Repr

/-- Value (value.h): tagged union nil / bool / number / object, plus the
    internal VAL_INT variant. Heap objects are inlined as constructors;
    objects that live in a mutable heap (classes, instances, arrays) are
    referenced by index into the corresponding heap list, which models
    pointer identity. Function and closure names are `Option String` because
    the top-level script function has a NULL name. -/
inductive Value where
  | vnil
  | vbool (b : Bool)
  | vnum (n : Int)
  | vint (i : Int)
  | vstr (s : String)
  | vfunction (name : Option String)
  | vclosure (name : Option String)
  | vnative (name : String)
  | vklass (ref : Nat)
  | vinstance (ref : Nat)
  | vboundMethod (receiver : Value) (method : Value)
  | vupvalue
  | varray (ref : Nat)
  | vnull
  deriving DecidableEq, Repr

/-- Modelled from the spec: the hash table component (table.c is not among
    the provided sources; only its callers are). A table maps interned
    string keys to values; modelled as an association list read through
    `tableGet`. -/
abbrev Table := List (String × Value)

/-- Modelled from the spec: table lookup (tableGet). -/
def tableGet (t : Table) (k : String) : Option Value :=
  match t with
  | [] => none
  | (k₂, v) :: rest => if k₂ = k then some v else tableGet rest k

/-- Modelled from the spec: table insertion (tableSet). Returns `true` iff
    the key was not previously present, together with the updated table. -/
def tableSet (t : Table) (k : String) (v : Value) : Bool × Table :=
  match t with
  | [] => (true, [(k, v)])
  | (k₂, v₂) :: rest =>
    if k₂ = k then (false, (k₂, v) :: rest)
    else
      let r := tableSet rest k v
      (r.1, (k₂, v₂) :: r.2)

/-- Modelled from the spec: table deletion (tableDelete); removes the
    binding for the key. -/
def tableDelete (t : Table) (k : String) : Table :=
  match t with
  | [] => []
  | (k₂, v₂) :: rest =>
    if k₂ = k then tableDelete rest k else (k₂, v₂) :: tableDelete rest k

/-- ObjClass (object.h): a name and a method table. -/
structure ObjClass where
  name : String
  methods : Table
  deriving Repr, DecidableEq

/-- ObjInstance (object.h): class reference plus field table. -/
structure ObjInstance where
  klass : Nat
  fields : Table
  deriving Repr, DecidableEq

/-- The mutable object heaps backing class / instance / array references. -/
structure Heap where
  classes : List ObjClass
  instances : List ObjInstance
  arrays : List (List Value)
  deriving Repr, DecidableEq

/-- IS_NIL from value.h. -/
def isNilV (v : Value) : Bool :=
  match v with
  | .vnil => true
  | _ => false

/-- IS_BOOL from value.h. -/
def isBoolV (v : Value) : Bool :=
  match v with
  | .vbool _ => true
  | _ => false

/-- IS_NUMBER from value.h. -/
def isNumberV (v : Value) : Bool :=
  match v with
  | .vnum _ => true
  | _ => false

/-- IS_STRING from object.h (IS_OBJ and object type OBJ_STRING). -/
def isStringV (v : Value) : Bool :=
  match v with
  | .vstr _ => true
  | _ => false

/-- AS_BOOL (defaulting outside its guard, as the C macro's use is guarded). -/
def asBool (v : Value) : Bool :=
  match v with
  | .vbool b => b
  | _ => false

/-- AS_NUMBER (defaulting outside its guard). -/
def asNumber (v : Value) : Int :=
  match v with
  | .vnum n => n
  | _ => 0

/-- AS_STRING's character data (defaulting outside its guard). -/
def asStringChars (v : Value) : String :=
  match v with
  | .vstr s => s
  | _ => ""

/-- The length field of a string object. -/
def strLength (v : Value) : Nat :=
  (asStringChars v).length

/-- isFalsey from vm.c: nil, false, the number 0, and the empty string are
    falsey; everything else is truthy. -/
def isFalsey (v : Value) : Bool :=
  isNilV v
    || (isBoolV v && !asBool v)
    || (isNumberV v && asNumber v == 0)
    || (isStringV v && strLength v == 0)

/-- OP_NOT in run(): pop the operand, push the boolean of its falseyness. -/
def opNot (stack : List Value) : List Value :=
  match stack with
  | v :: rest => .vbool (isFalsey v) :: rest
  | [] => []

/-- OP_JUMP_IF_FALSE in run(): inspect the top of stack non-destructively;
    advance ip by the offset exactly when it is falsey. -/
def opJumpIfFalse (ip offset : Nat) (top : Value) : Nat :=
  if isFalsey top then ip + offset else ip

/-- OP_JUMP_IF_TRUE in run(): advance ip by the offset exactly when the top
    of stack is truthy. -/
def opJumpIfTrue (ip offset : Nat) (top : Value) : Nat :=
  if !isFalsey top then ip + offset else ip

/-- Rendering of a number by C's "%g" format, restricted to the integers
    standing in for doubles: they print without a fractional part. -/
def numberToString (n : Int) : String :=
  toString n

/-- Name lookup for a class reference. -/
def classNameAt (H : Heap) (r : Nat) : String :=
  (H.classes.getD r ⟨"", []⟩).name

/-- The class name of an instance reference. -/
def instanceClassName (H : Heap) (r : Nat) : String :=
  classNameAt H (H.instances.getD r ⟨0, []⟩).klass

/-- The element count of an array reference. -/
def arrayCount (H : Heap) (r : Nat) : Nat :=
  (H.arrays.getD r []).length

/-- stringifyFunction from object.c: functions print as their name, the
    nameless script function as script. -/
def stringifyFunction (name : Option String) : String :=
  match name with
  | none => "<script>"
  | some n => "<fun " ++ n ++ ">"

/-- The function name stored in a closure value (bound methods print it). -/
def closureFunctionName (v : Value) : String :=
  match v with
  | .vclosure (some n) => n
  | .vfunction (some n) => n
  | _ => ""

/-- stringifyValue from value.c together with stringifyObject from object.c:
    the toString protocol. Heap references stand in for the object addresses
    that the C code prints. -/
def stringifyValue (H : Heap) : Value → String
  | .vbool b => if b then "true" else "false"
  | .vnil => "nil"
  | .vnum n => numberToString n
  | .vint i => "<internal int " ++ toString i ++ ">"
  | .vboundMethod receiver method =>
    "<bound method " ++ closureFunctionName method ++ " of object '"
      ++ stringifyValue H receiver ++ "'>"
  | .vklass r => "<class " ++ classNameAt H r ++ ">"
  | .vclosure name => stringifyFunction name
  | .vfunction name => stringifyFunction name
  | .vinstance r =>
    "<" ++ instanceClassName H r ++ " instance at 0x" ++ toString r ++ ">"
  | .vnative _ => "<native fun>"
  | .vupvalue => "upvalue"
  | .vstr s => s
  | .varray r => "<array of length " ++ toString (arrayCount H r) ++ ">"
  | .vnull => "<null>"

/-- takeString from object.c seen through the intern table: the characters
    determine the canonical string object, and the table records every
    string interned so far. -/
def takeString (strings : List String) (s : String) : List String × String :=
  if strings.contains s then (strings, s) else (s :: strings, s)

/-- toString from vm.c: stringify then intern. -/
def vmToString (H : Heap) (strings : List String) (v : Value)
    : List String × String :=
  takeString strings (stringifyValue H v)

/-- Outcome of a single instruction that may raise a runtime error. -/
inductive StepResult (α : Type) where
  | next (s : α)
  | fail (msg : String)
  deriving Repr, DecidableEq

/-- concatenate from vm.c: the top of stack is the right operand; operands
    that are not already strings go through toString; the concatenation is
    interned and pushed in place of the operands. -/
def concatenate (H : Heap) (strings : List String) (bVal aVal : Value)
    (rest : List Value) : List String × List Value :=
  let a := if isStringV aVal then asStringChars aVal
           else (vmToString H strings aVal).2
  let stringsA := if isStringV aVal then strings
                  else (vmToString H strings aVal).1
  let b := if isStringV bVal then asStringChars bVal
           else (vmToString H stringsA bVal).2
  let stringsB := if isStringV bVal then stringsA
                  else (vmToString H stringsA bVal).1
  let r := takeString stringsB (a ++ b)
  (r.1, .vstr r.2 :: rest)

/-- OP_ADD from run(): dispatch on the two top operands; string on either
    side concatenates, two numbers add, anything else is a runtime error. -/
def opAdd (H : Heap) (strings : List String) (stack : List Value)
    : StepResult (List String × List Value) :=
  match stack with
  | b :: a :: rest =>
    if isStringV b || isStringV a then
      .next (concatenate H strings b a rest)
    else if isNumberV b && isNumberV a then
      .next (strings, .vnum (asNumber a + asNumber b) :: rest)
    else
      .fail ("Operands must be two numbers or two strings.")
  | _ => .fail ("stack underflow")

theorem takeString_snd (st : List String) (s : String) :
    (takeString st s).2 = s := by
  unfold takeString
  split <;> rfl

theorem takeString_contains (st : List String) (s : String) :
    (takeString st s).1.contains s = true := by
  unfold takeString
  split
  case isTrue h => exact h
  case isFalse h => simp

theorem takeString_mem (st : List String) (s : String) :
    s ∈ (takeString st s).1 := by
  unfold takeString
  split
  case isTrue h => simpa using h
  case isFalse h => exact List.mem_cons_self s st

theorem isStringV_false_of_isNumberV (v : Value) (h : isNumberV v = true) :
    isStringV v = false := by
  cases v <;> simp_all [isNumberV, isStringV]

theorem stringifyValue_of_isStringV (H : Heap) (v : Value)
    (h : isStringV v = true) : stringifyValue H v = asStringChars v := by
  cases v <;> simp_all [isStringV, stringifyValue, asStringChars]

theorem strLength_eq_zero_iff (s : String) : s.length = 0 ↔ s = "" := by
  constructor
  · intro h
    cases s with
    | mk data =>
      cases data with
      | nil => rfl
      | cons a l => simp [String.length] at h
  · intro h
    subst h
    rfl

/-- C9: a value is treated as false by the condition-testing operations
    (OP_NOT and the conditional jumps, all of which dispatch through
    isFalsey) exactly when it is nil, the boolean false, the number 0, or a
    string of length 0; every other value is treated as true. -/
theorem C9_falsey_characterization (v : Value) (ip offset : Nat) (stack : List Value) :
    (isFalsey v = true ↔
      (v = .vnil ∨ v = .vbool false ∨ v = .vnum 0 ∨ v = .vstr "")) ∧
    opNot (v :: stack) = .vbool (isFalsey v) :: stack ∧
    opJumpIfFalse ip offset v = (if isFalsey v then ip + offset else ip) ∧
    opJumpIfTrue ip offset v = (if isFalsey v then ip else ip + offset) := by
  refine ⟨?_, rfl, rfl, ?_⟩
  · cases v <;>
      simp [isFalsey, isNilV, isBoolV, isNumberV, isStringV, asBool, asNumber,
        asStringChars, strLength]
    case vstr s => exact strLength_eq_zero_iff s
  · unfold opJumpIfTrue
    cases h : isFalsey v <;> simp [h]

/-- C5: executing ADD with operands a (below) and b (top): if either is a
    string, both are stringified via the toString protocol and their
    concatenation is pushed as an interned string; if both are numbers their
    sum is pushed; any other combination raises the runtime error "Operands
    must be two numbers or two strings." and aborts. -/
theorem C5_op_add_semantics (H : Heap) (strings : List String) (a b : Value)
    (rest : List Value) :
    (isStringV a = true ∨ isStringV b = true →
      ∃ strings₂,
        opAdd H strings (b :: a :: rest) =
          .next (strings₂,
            .vstr (stringifyValue H a ++ stringifyValue H b) :: rest) ∧
        strings₂.contains (stringifyValue H a ++ stringifyValue H b) = true) ∧
    (isNumberV a = true → isNumberV b = true →
      opAdd H strings (b :: a :: rest) =
        .next (strings, .vnum (asNumber a + asNumber b) :: rest)) ∧
    (isStringV a = false → isStringV b = false →
      (isNumberV a && isNumberV b) = false →
      opAdd H strings (b :: a :: rest) =
        .fail ("Operands must be two numbers or two strings.")) := by
  refine ⟨?_, ?_, ?_⟩
  · intro h
    have hor : (isStringV b || isStringV a) = true := by
      rcases h with h | h <;> simp [h]
    refine ⟨(concatenate H strings b a rest).1, ?_, ?_⟩
    · have hconc : concatenate H strings b a rest =
          ((concatenate H strings b a rest).1,
            .vstr (stringifyValue H a ++ stringifyValue H b) :: rest) := by
        unfold concatenate
        simp only [vmToString, takeString_snd]
        by_cases ha : isStringV a = true <;> by_cases hb : isStringV b = true <;>
          simp [ha, hb, takeString_snd, stringifyValue_of_isStringV]
      simp only [opAdd, hor, if_pos]
      rw [hconc]
    · unfold concatenate
      simp only [vmToString, takeString_snd]
      by_cases ha : isStringV a = true <;> by_cases hb : isStringV b = true <;>
        simp [ha, hb, takeString_snd, takeString_mem,
          stringifyValue_of_isStringV]
  · intro ha hb
    have ha' := isStringV_false_of_isNumberV a ha
    have hb' := isStringV_false_of_isNumberV b hb
    simp [opAdd, ha, hb, ha', hb']
  · intro ha hb hnum
    have hnum' : (isNumberV b && isNumberV a) = false := by
      cases hx : isNumberV a <;> cases hy : isNumberV b <;> simp_all
    simp [opAdd, ha, hb, hnum']

/-- Witness for C5 at concrete operands: 1 + "x" concatenates to the
    interned string "1x"; 2 + 3 adds to 5; nil + true errors. -/
theorem C5_op_add_semantics_witness :
    (∃ strings₂,
        opAdd ⟨[], [], []⟩ [] (.vstr ("x") :: .vnum 1 :: []) =
          .next (strings₂, .vstr (stringifyValue ⟨[], [], []⟩ (.vnum 1)
            ++ stringifyValue ⟨[], [], []⟩ (.vstr ("x"))) :: []) ∧
        strings₂.contains (stringifyValue ⟨[], [], []⟩ (.vnum 1)
            ++ stringifyValue ⟨[], [], []⟩ (.vstr ("x"))) = true) ∧
    opAdd ⟨[], [], []⟩ [] (.vnum 3 :: .vnum 2 :: []) =
      .next ([], .vnum (asNumber (.vnum 2) + asNumber (.vnum 3)) :: []) ∧
    opAdd ⟨[], [], []⟩ [] (.vbool true :: .vnil :: []) =
      .fail ("Operands must be two numbers or two strings.") := by
  refine ⟨?_, ?_, ?_⟩
  · exact (C5_op_add_semantics ⟨[], [], []⟩ [] (.vnum 1) (.vstr ("x")) []).1
      (Or.inr rfl)
  · exact (C5_op_add_semantics ⟨[], [], []⟩ [] (.vnum 2) (.vnum 3) []).2.1
      rfl rfl
  · exact (C5_op_add_semantics ⟨[], [], []⟩ [] .vnil (.vbool true) []).2.2
      rfl rfl rfl

/-- First n characters of a string (the length argument that takeString
    receives selects this prefix of the rendered buffer). -/
def strTake (s : String) (n : Nat) : String :=
  String.mk (s.data.take n)

/-- The C return value of asprintf from utils.c: the number of characters
    written, excluding the terminating NUL — the length of the rendered
    string. -/
def asprintfLength (s : String) : Nat :=
  s.length

/-- The string rendered by the asprintf calls inside funGetTypeName in
    natives.c, per value tag; an instance renders its class name. -/
def getTypeNameRendered (H : Heap) (v : Value) : String :=
  match v with
  | .vbool _ => "boolean"
  | .vnum _ => "number"
  | .vnil => "nil"
  | .vint _ => "int"
  | .vnull => "null"
  | .vklass _ => "class"
  | .vclosure _ => "closure"
  | .vfunction _ => "function"
  | .vinstance r => instanceClassName H r
  | .vnative _ => "native"
  | .vupvalue => "upvalue"
  | .vstr _ => "string"
  | .varray _ => "array"
  | .vboundMethod _ _ => "object"

/-- funGetTypeName from natives.c: EXPECT_ARGS(argCount, 1), render the
    type name, then return takeString(result, length - 1) — the interned
    string built from length - 1 characters of the rendered buffer. -/
def funGetTypeName (H : Heap) (args : List Value) : Value :=
  match args with
  | [v] =>
    let s := getTypeNameRendered H v
    .vstr (strTake s (asprintfLength s - 1))
  | _ => .vnull

/-- C3 (code evaluated at the failing inputs): getTypeName truncates the
    final character of every type name, returning "boolea" for a boolean
    and "Fo" for an instance of a class named "Foo", contradicting the
    claim that the full type-name string (respectively the exact class
    name) is returned. -/
theorem C3_getTypeName_truncated :
    funGetTypeName ⟨[], [], []⟩ [.vbool true] = .vstr ("boolea") ∧
    ("boolea" : String) ≠ ("boolean" : String) ∧
    funGetTypeName ⟨[⟨"Foo", []⟩], [⟨0, []⟩], []⟩ [.vinstance 0]
      = .vstr ("Fo") ∧
    ("Fo" : String) ≠ ("Foo" : String) ∧
    funGetTypeName ⟨[], [], []⟩ [.vnil] = .vstr ("ni") := by
  refine ⟨by decide, by decide, by decide, by decide, by decide⟩

/-- Local slot bookkeeping of the compiler (compiler.h): the localCount
    field that addLocal guards, together with the compile errors reported
    so far (the names and depths stored in the locals array play no part
    in the slot limit). -/
structure LocalsState where
  localCount : Nat
  errors : List String
  deriving Repr, DecidableEq

/-- UINT8_COUNT from common.h. -/
def UINT8_COUNT : Nat := 256

/-- addLocal from compiler.c: a new local is refused, with the verbatim
    error message of the source, when all UINT8_COUNT slots are occupied. -/
def addLocal (c : LocalsState) : LocalsState :=
  if c.localCount == UINT8_COUNT then
    { c with errors := c.errors ++ ["Too many local variabls in function."] }
  else
    { c with localCount := c.localCount + 1 }

/-- initCompiler from compiler.c: slot 0 is claimed for the reserved
    receiver/callee slot before any user declaration. -/
def initLocals : LocalsState :=
  { localCount := 1, errors := [] }

/-- n user declarations in a local scope, each reaching addLocal through
    declareVariable with a fresh name (so the duplicate-name check does not
    fire). -/
def declareLocals (n : Nat) : LocalsState :=
  Nat.rec initLocals (fun _ c => addLocal c) n

/-- C4 counterexample: with slot 0 reserved by initCompiler, the 256th user
    declaration already reports a compile error — and its message is the
    source's misspelt "Too many local variabls in function.", not the
    claimed "Too many local variables in function.". -/
theorem C4_locals_counterexample :
    (declareLocals 256).errors = ["Too many local variabls in function."] ∧
    ("Too many local variabls in function." : String)
      ≠ ("Too many local variables in function." : String) := by
  constructor
  · decide
  · decide

/-- C4 amended: declaring up to exactly 255 local variables in one function
    compiles without error (filling all 256 slots together with the
    reserved slot 0), and the 256th declaration reports the compile error
    "Too many local variabls in function." while adding no slot. -/
theorem C4_locals_limit :
    (declareLocals 255).errors = [] ∧
    (declareLocals 255).localCount = 256 ∧
    (declareLocals 256).errors = ["Too many local variabls in function."] ∧
    (declareLocals 256).localCount = 256 := by
  refine ⟨by decide, by decide, by decide, by decide⟩

/-- captureUpvalue from vm.c, on the VM's open-upvalue list viewed as the
    list of captured stack-slot addresses, head first (the list is kept
    descending by address). The walk skips entries whose address is above
    the requested slot, reuses an existing upvalue for the same slot, and
    otherwise inserts a fresh one between prevUpvalue and upvalue. -/
def captureUpvalue (upvalues : List Nat) (slot : Nat) : List Nat :=
  match upvalues with
  | [] => [slot]
  | u :: rest =>
    if slot < u then u :: captureUpvalue rest slot
    else if u = slot then u :: rest
    else slot :: u :: rest

/-- closeUpvalues from vm.c: every open upvalue whose slot address is at or
    above `last` is closed (its value copied inline) and removed from the
    open list; the list head is always the highest address, so the loop
    stops at the first entry below `last`. -/
def closeUpvalues (upvalues : List Nat) (last : Nat) : List Nat :=
  match upvalues with
  | [] => []
  | u :: rest => if last ≤ u then closeUpvalues rest last else u :: rest

/-- Strictly descending by slot address. -/
def DescendingUpvalues (upvalues : List Nat) : Prop :=
  upvalues.Pairwise (· > ·)

instance (upvalues : List Nat) : Decidable (DescendingUpvalues upvalues) := by
  unfold DescendingUpvalues
  infer_instance

theorem mem_captureUpvalue (upvalues : List Nat) (slot x : Nat)
    (h : x ∈ captureUpvalue upvalues slot) : x ∈ upvalues ∨ x = slot := by
  induction upvalues with
  | nil =>
    simp [captureUpvalue] at h
    exact Or.inr h
  | cons u rest ih =>
    by_cases h₁ : slot < u
    · simp only [captureUpvalue, if_pos h₁] at h
      rcases List.mem_cons.mp h with h₂ | h₂
      · exact Or.inl (by simp [h₂])
      · rcases ih h₂ with h₃ | h₃
        · exact Or.inl (List.mem_cons_of_mem u h₃)
        · exact Or.inr h₃
    · by_cases h₂ : u = slot
      · simp only [captureUpvalue, if_neg h₁, if_pos h₂] at h
        exact Or.inl h
      · simp only [captureUpvalue, if_neg h₁, if_neg h₂] at h
        rcases List.mem_cons.mp h with h₃ | h₃
        · exact Or.inr h₃
        · exact Or.inl h₃

theorem captureUpvalue_descending (upvalues : List Nat) (slot : Nat)
    (h : DescendingUpvalues upvalues) :
    DescendingUpvalues (captureUpvalue upvalues slot) := by
  induction upvalues with
  | nil => simp [captureUpvalue, DescendingUpvalues]
  | cons u rest ih =>
    have hu : ∀ x ∈ rest, u > x := (List.pairwise_cons.mp h).1
    have hrest : DescendingUpvalues rest := (List.pairwise_cons.mp h).2
    by_cases h₁ : slot < u
    · simp only [captureUpvalue, if_pos h₁]
      refine List.pairwise_cons.mpr ⟨?_, ih hrest⟩
      intro x hx
      rcases mem_captureUpvalue rest slot x hx with h₂ | h₂
      · exact hu x h₂
      · simpa [h₂] using h₁
    · by_cases h₂ : u = slot
      · simpa only [captureUpvalue, if_neg h₁, if_pos h₂] using h
      · have h₃ : u < slot := by omega
        simp only [captureUpvalue, if_neg h₁, if_neg h₂]
        refine List.pairwise_cons.mpr ⟨?_, h⟩
        intro x hx
        rcases List.mem_cons.mp hx with h₄ | h₄
        · simpa [h₄] using h₃
        · exact lt_trans (hu x h₄) h₃

theorem closeUpvalues_descending (upvalues : List Nat) (last : Nat)
    (h : DescendingUpvalues upvalues) :
    DescendingUpvalues (closeUpvalues upvalues last) := by
  induction upvalues with
  | nil => simpa [closeUpvalues] using h
  | cons u rest ih =>
    have hrest : DescendingUpvalues rest := (List.pairwise_cons.mp h).2
    by_cases h₁ : last ≤ u
    · simpa only [closeUpvalues, if_pos h₁] using ih hrest
    · simpa only [closeUpvalues, if_neg h₁] using h

/-- C6: the open-upvalue list invariant — strictly descending by slot
    address, hence at most one open upvalue per stack slot — is preserved
    by capturing an upvalue (OP_CLOSURE) and by closing upvalues
    (OP_CLOSE_UPVALUE and OP_RETURN / OP_RETURN_NIL both call
    closeUpvalues). -/
theorem C6_open_upvalue_invariant (upvalues : List Nat) (slot last : Nat)
    (h : DescendingUpvalues upvalues) :
    DescendingUpvalues (captureUpvalue upvalues slot) ∧
    (captureUpvalue upvalues slot).Nodup ∧
    DescendingUpvalues (closeUpvalues upvalues last) ∧
    (closeUpvalues upvalues last).Nodup := by
  have hc := captureUpvalue_descending upvalues slot h
  have hd := closeUpvalues_descending upvalues last h
  exact ⟨hc, hc.imp (fun hx => Nat.ne_of_gt hx), hd,
    hd.imp (fun hx => Nat.ne_of_gt hx)⟩

/-- Witness for C6 at a concrete descending list: capturing slot 4 into
    [7, 5, 2] and closing slots at or above 5 both preserve the invariant. -/
theorem C6_open_upvalue_invariant_witness :
    DescendingUpvalues [7, 5, 2] ∧
    (DescendingUpvalues (captureUpvalue [7, 5, 2] 4) ∧
      (captureUpvalue [7, 5, 2] 4).Nodup ∧
      DescendingUpvalues (closeUpvalues [7, 5, 2] 5) ∧
      (closeUpvalues [7, 5, 2] 5).Nodup) :=
  ⟨by decide, C6_open_upvalue_invariant [7, 5, 2] 4 5 (by decide)⟩

/-- emitConstantOperator from compiler.c: the one-byte short form when the
    index fits in UINT8_MAX, otherwise the long form with the index in two
    big-endian bytes (emitLongBytes). The result is the byte sequence
    appended to the chunk. -/
def emitConstantOperator (id : Nat) (shortCode longCode : Nat) : List Nat :=
  if id ≤ 255 then [shortCode, id]
  else [longCode, (id >>> 8) &&& 255, id &&& 255]

/-- The chunk-and-dedup state that makeConstant works on: the constant pool
    and the compiler's per-function string-constant table mapping interned
    strings to pool indices. -/
structure ChunkState where
  constants : List Value
  strings : List (String × Nat)
  errors : List String
  deriving Repr, DecidableEq

/-- Lookup in the compiler's string-dedup table. -/
def lookupDedup (t : List (String × Nat)) (s : String) : Option Nat :=
  match t with
  | [] => none
  | (k, i) :: rest => if k = s then some i else lookupDedup rest s

/-- The dedup hit makeConstant begins with: for a string value, the pool
    index already recorded for it, if any. -/
def dedupHit (st : ChunkState) (v : Value) : Option Nat :=
  match v with
  | .vstr s => lookupDedup st.strings s
  | _ => none

/-- makeConstant from compiler.c: reuse the dedup index for a known string;
    otherwise addConstant appends the value (returning its index), indexes
    above UINT16_MAX are a compile error returning 0, and new string
    constants are recorded in the dedup table. -/
def makeConstant (st : ChunkState) (v : Value) : Nat × ChunkState :=
  match dedupHit st v with
  | some c => (c, st)
  | none =>
    let constant := st.constants.length
    let st₁ := { st with constants := st.constants ++ [v] }
    if constant > 65535 then
      (0, { st₁ with errors := st₁.errors ++
        ["Too many constants in one chunk. (max is 65536)"] })
    else
      match v with
      | .vstr s =>
        (constant, { st₁ with strings := st₁.strings ++ [(s, constant)] })
      | _ => (constant, st₁)

/-- C7: every constant-indexed emission picks the one-byte short form
    exactly when the index is at most 255 and the big-endian long form
    otherwise; a fresh constant (no dedup hit) in a pool that is not full
    is appended at index `pool size`, so the first 256 constants get short
    forms and the 257th (index 256) forces the long variant. -/
theorem C7_short_long_selection (id shortCode longCode : Nat)
    (st : ChunkState) (v : Value)
    (hfresh : dedupHit st v = none) (hroom : st.constants.length ≤ 65535) :
    (emitConstantOperator id shortCode longCode = [shortCode, id] ↔ id ≤ 255) ∧
    (255 < id →
      emitConstantOperator id shortCode longCode =
        [longCode, (id >>> 8) &&& 255, id &&& 255]) ∧
    (makeConstant st v).1 = st.constants.length ∧
    (st.constants.length ≤ 255 →
      emitConstantOperator (makeConstant st v).1 shortCode longCode =
        [shortCode, st.constants.length]) ∧
    (st.constants.length = 256 →
      emitConstantOperator (makeConstant st v).1 shortCode longCode =
        [longCode, 1, 0]) := by
  have hmk : (makeConstant st v).1 = st.constants.length := by
    unfold makeConstant
    rw [hfresh]
    have : ¬ st.constants.length > 65535 := by omega
    simp only [if_neg this]
    cases v <;> rfl
  refine ⟨?_, ?_, hmk, ?_, ?_⟩
  · constructor
    · intro h
      by_contra hgt
      simp only [emitConstantOperator, if_neg hgt] at h
      exact absurd (congrArg List.length h) (by simp)
    · intro h
      simp [emitConstantOperator, h]
  · intro h
    have : ¬ id ≤ 255 := by omega
    simp [emitConstantOperator, this]
  · intro h
    simp [hmk, emitConstantOperator, h]
  · intro h
    rw [hmk, h]
    rfl

/-- Witness for C7 on a pool holding exactly 256 constants: the fresh
    number constant lands at index 256 and is emitted in the long form
    with big-endian operand bytes 1, 0; the short-form equivalence holds
    at index 256 too (it is not the short form). -/
theorem C7_short_long_selection_witness :
    dedupHit ⟨List.replicate 256 .vnil, [], []⟩ (.vnum 5) = none ∧
    (⟨List.replicate 256 .vnil, [], []⟩ : ChunkState).constants.length ≤ 65535 ∧
    (makeConstant ⟨List.replicate 256 .vnil, [], []⟩ (.vnum 5)).1 = 256 ∧
    emitConstantOperator
      (makeConstant ⟨List.replicate 256 .vnil, [], []⟩ (.vnum 5)).1 1 2 =
      [2, 1, 0] := by
  have h := C7_short_long_selection 256 1 2
    ⟨List.replicate 256 .vnil, [], []⟩ (.vnum 5) (by decide) (by decide)
  refine ⟨by decide, by decide, ?_, ?_⟩
  · rw [h.2.2.1]
    decide
  · exact h.2.2.2.2 (by decide)

/-- One loop context of the compiler (compiler.h): the loop start offset
    and how many break statements have been recorded in it. -/
structure Loop where
  start : Nat
  breakCount : Nat
  deriving Repr, DecidableEq

/-- The compiler's loop stack plus reported compile errors; the innermost
    loop is first, and an empty list models loopTop < loops. -/
structure LoopState where
  loops : List Loop
  errors : List String
  deriving Repr, DecidableEq

/-- breakStatement from compiler.c: with no enclosing loop the compile
    error "No loop to break out of." is reported (the source then reads
    loops[-1], which C leaves undefined — compilation has already failed);
    with a loop whose breakCount is non-zero, "Too many break statements in
    loop."; otherwise the break's jump site is recorded and breakCount
    becomes 1. -/
def breakStatement (c : LoopState) : LoopState :=
  match c.loops with
  | [] => { c with errors := c.errors ++ ["No loop to break out of."] }
  | loop :: rest =>
    if loop.breakCount != 0 then
      { c with errors := c.errors ++ ["Too many break statements in loop."] }
    else
      { c with loops := { loop with breakCount := loop.breakCount + 1 } :: rest }

/-- continueStatement from compiler.c: with no enclosing loop the compile
    error "No loop to continue to top of." is reported; otherwise a
    backward jump to the loop start is emitted and the loop state is
    unchanged. -/
def continueStatement (c : LoopState) : LoopState :=
  match c.loops with
  | [] => { c with errors := c.errors ++ ["No loop to continue to top of."] }
  | _ => c

/-- C8: break and continue outside any loop are compile errors, and within
    a single loop only the first break compiles — a second break in the
    same loop reports "Too many break statements in loop." -/
theorem C8_break_continue_limits (c : LoopState) (loop : Loop)
    (rest : List Loop) :
    (c.loops = [] →
      breakStatement c =
        { c with errors := c.errors ++ ["No loop to break out of."] } ∧
      continueStatement c =
        { c with errors := c.errors ++ ["No loop to continue to top of."] }) ∧
    (c.loops = loop :: rest → loop.breakCount = 0 →
      breakStatement c =
        { c with loops := { loop with breakCount := 1 } :: rest }) ∧
    (c.loops = loop :: rest → loop.breakCount ≠ 0 →
      breakStatement c =
        { c with errors := c.errors ++ ["Too many break statements in loop."] }) := by
  refine ⟨?_, ?_, ?_⟩
  · intro h
    constructor
    · unfold breakStatement
      rw [h]
    · unfold continueStatement
      rw [h]
  · intro h hbc
    unfold breakStatement
    rw [h]
    simp [hbc]
  · intro h hbc
    unfold breakStatement
    rw [h]
    simp [hbc]

/-- Witness for C8: an empty loop stack rejects break and continue; a loop
    yet to see a break accepts the first one, after which the same loop
    rejects the second. -/
theorem C8_break_continue_limits_witness :
    (breakStatement ⟨[], []⟩ = ⟨[], ["No loop to break out of."]⟩ ∧
      continueStatement ⟨[], []⟩ = ⟨[], ["No loop to continue to top of."]⟩) ∧
    breakStatement ⟨[⟨7, 0⟩], []⟩ = ⟨[⟨7, 1⟩], []⟩ ∧
    breakStatement ⟨[⟨7, 1⟩], []⟩ =
      ⟨[⟨7, 1⟩], ["Too many break statements in loop."]⟩ := by
  refine ⟨(C8_break_continue_limits ⟨[], []⟩ ⟨7, 0⟩ []).1 rfl, ?_, ?_⟩
  · exact (C8_break_continue_limits ⟨[⟨7, 0⟩], []⟩ ⟨7, 0⟩ []).2.1 rfl rfl
  · exact (C8_break_continue_limits ⟨[⟨7, 1⟩], []⟩ ⟨7, 1⟩ []).2.2 rfl
      (by decide)

/-- Outcome of executing OP_SET_GLOBAL: whether run() returns (and with
    what), the reported message, and the globals table afterwards. -/
structure SetGlobalOutcome where
  result : Option InterpretResult
  errorMsg : Option String
  globals : Table
  deriving Repr, DecidableEq

/-- OP_SET_GLOBAL / OP_SET_GLOBAL_LONG from run(): tableSet the name to the
    peeked top of stack; when tableSet reports a new key the tentative
    entry is deleted, "Undefined variable '<name>'." is reported and run()
    returns INTERPRET_RUNTIME_ERROR; otherwise execution continues with the
    value still on the stack. -/
def opSetGlobal (globals : Table) (name : String) (top : Value)
    : SetGlobalOutcome :=
  let r := tableSet globals name top
  if r.1 then
    { result := some .runtimeError,
      errorMsg := some ("Undefined variable '" ++ name ++ "'."),
      globals := tableDelete r.2 name }
  else
    { result := none, errorMsg := none, globals := r.2 }

theorem tableGet_tableDelete (t : Table) (k : String) :
    tableGet (tableDelete t k) k = none := by
  induction t with
  | nil => rfl
  | cons p rest ih =>
    by_cases h : p.1 = k
    · simpa [tableDelete, h] using ih
    · simpa [tableDelete, tableGet, h] using ih

theorem tableSet_fst_of_not_found (t : Table) (k : String) (v : Value)
    (h : tableGet t k = none) : (tableSet t k v).1 = true := by
  induction t with
  | nil => rfl
  | cons p rest ih =>
    by_cases hk : p.1 = k
    · simp [tableGet, hk] at h
    · simp only [tableGet, hk, if_neg] at h
      simpa [tableSet, hk] using ih h

/-- C10: OP_SET_GLOBAL[_LONG] on a name with no existing binding reports
    the runtime error "Undefined variable '<name>'.", aborts with
    RUNTIME_ERROR, and leaves the globals table without a binding for that
    name — the tentative insertion is deleted before the error is raised. -/
theorem C10_set_global_undefined (globals : Table) (name : String)
    (top : Value) (h : tableGet globals name = none) :
    (opSetGlobal globals name top).result = some .runtimeError ∧
    (opSetGlobal globals name top).errorMsg =
      some ("Undefined variable '" ++ name ++ "'.") ∧
    tableGet (opSetGlobal globals name top).globals name = none := by
  have hnew := tableSet_fst_of_not_found globals name top h
  refine ⟨?_, ?_, ?_⟩ <;>
    simp [opSetGlobal, hnew, tableGet_tableDelete]

/-- Witness for C10: assigning to the undefined global "y" (with "x"
    defined) aborts with the runtime error and leaves "y" unbound. -/
theorem C10_set_global_undefined_witness :
    tableGet [("x", .vnum 1)] ("y") = none ∧
    ((opSetGlobal [("x", .vnum 1)] ("y") (.vnum 2)).result
        = some .runtimeError ∧
      (opSetGlobal [("x", .vnum 1)] ("y") (.vnum 2)).errorMsg
        = some ("Undefined variable 'y'.") ∧
      tableGet (opSetGlobal [("x", .vnum 1)] ("y") (.vnum 2)).globals ("y")
        = none) :=
  ⟨by decide, C10_set_global_undefined [("x", .vnum 1)] ("y") (.vnum 2)
    (by decide)⟩

/-- AS_CLASS resolved through the class heap (guarded in the source by the
    compiler only emitting GET_SUPER under a superclass binding). -/
def asClass (H : Heap) (v : Value) : ObjClass :=
  match v with
  | .vklass r => H.classes.getD r ⟨"", []⟩
  | _ => ⟨"", []⟩

/-- bindMethod from vm.c: when the class's method table lacks the name,
    ERR_PROPERTY reports "Undefined property '<name>' of '<receiver>'."
    (vruntimeError also resets the value stack) and bindMethod returns
    true; when the method exists, the receiver at the stack top is replaced
    by a bound method pairing it with the method's closure, and bindMethod
    returns false. The result is (returned bool, reported message, stack
    afterwards). -/
def bindMethod (H : Heap) (klass : ObjClass) (name : String)
    (stack : List Value) : Bool × Option String × List Value :=
  match tableGet klass.methods name with
  | none =>
    (true,
      some ("Undefined property '" ++ name ++ "' of '"
        ++ stringifyValue H (stack.headD .vnil) ++ "'."),
      [])
  | some method =>
    match stack with
    | receiver :: rest => (false, none, .vboundMethod receiver method :: rest)
    | [] => (false, none, [])

/-- Outcome of executing OP_GET_SUPER: whether run() returns (and with
    what), the runtime error reported during the instruction if any, and
    the stack afterwards. -/
structure GetSuperOutcome where
  result : Option InterpretResult
  reportedError : Option String
  stack : List Value
  deriving Repr, DecidableEq

/-- OP_GET_SUPER / OP_GET_SUPER_LONG from run(): pop the superclass, then
    `if (!bindMethod(superclass, name)) return INTERPRET_RUNTIME_ERROR;`
    — the test is on the negation of bindMethod's return value. -/
def opGetSuper (H : Heap) (name : String) (stack : List Value)
    : GetSuperOutcome :=
  match stack with
  | superVal :: rest =>
    let r := bindMethod H (asClass H superVal) name rest
    if !r.1 then
      { result := some .runtimeError, reportedError := r.2.1, stack := r.2.2 }
    else
      { result := none, reportedError := r.2.1, stack := r.2.2 }
  | [] => { result := none, reportedError := none, stack := [] }

/-- C1 (code evaluated at the failing input): with superclass "A" holding
    method "m" on top of the stack above the receiver, OP_GET_SUPER builds
    the bound method but then aborts interpretation with RUNTIME_ERROR and
    no reported message — bindMethod returns false on success and the
    dispatch tests `!bindMethod(...)`; conversely, when the method is
    missing, the "Undefined property" error is reported yet run()
    continues instead of returning RUNTIME_ERROR. -/
theorem C1_get_super_inverted :
    opGetSuper ⟨[⟨"A", [("m", .vclosure (some ("m")))]⟩], [⟨0, []⟩], []⟩
        ("m") [.vklass 0, .vinstance 0] =
      { result := some .runtimeError,
        reportedError := none,
        stack := [.vboundMethod (.vinstance 0) (.vclosure (some ("m")))] } ∧
    (opGetSuper ⟨[⟨"A", [("m", .vclosure (some ("m")))]⟩], [⟨0, []⟩], []⟩
        ("absent") [.vklass 0, .vinstance 0]).result = none ∧
    (opGetSuper ⟨[⟨"A", [("m", .vclosure (some ("m")))]⟩], [⟨0, []⟩], []⟩
        ("absent") [.vklass 0, .vinstance 0]).reportedError =
      some ("Undefined property 'absent' of '<A instance at 0x0>'.") := by
  refine ⟨by decide, by decide, by decide⟩

/-- funSize from natives.c: the length of a string or the element count of
    an array, as a number; other operands are a runtime error. -/
def funSize (H : Heap) (args : List Value) : StepResult Value :=
  match args with
  | [obj] =>
    match obj with
    | .vstr s => .next (.vnum s.length)
    | .varray r => .next (.vnum (arrayCount H r))
    | _ => .fail ("Only strings, arrays, and tables have size/length")
  | _ => .fail ("Expected 1 arguments but got " ++ toString args.length)

/-- A number that is a valid array index below the bound: non-negative and
    strictly below count. -/
def validIndex (n : Int) (count : Nat) : Bool :=
  decide (0 ≤ n) && decide (n < count)

/-- The VM instructions needed by the array scenario, at instruction (not
    byte) granularity; constant and global operands are carried inline. -/
inductive Instr where
  | byteNum (n : Nat)
  | defineGlobal (name : String)
  | getGlobal (name : String)
  | newArray (argc : Nat)
  | subscriptGet (argc : Nat)
  | subscriptAssign (argc : Nat)
  | addOp
  | callOp (argc : Nat)
  | printOp
  | popOp
  deriving Repr, DecidableEq

/-- The VM state for the array scenario: value stack (top first), globals,
    heaps, intern table and the lines printed so far. -/
structure VMState where
  stack : List Value
  globals : Table
  heap : Heap
  strings : List String
  output : List String
  deriving Repr, DecidableEq

/-- One instruction of the dispatch loop. BYTE_NUM, DEFINE_GLOBAL,
    GET_GLOBAL, ADD, CALL, PRINT and POP follow run() in vm.c; NEW_ARRAY,
    SUBSCRIPT and SUBSCRIPT_ASSIGN are modelled from the spec: the provided
    sources declare these opcodes (chunk.h) and emit them (compiler.c), but
    the dispatch switch executing them is not among the sources. Per the
    spec they perform numeric indexing into arrays, with out-of-range a
    runtime error and assignment yielding the assigned value; NEW_ARRAY
    pops its argc operands into a fresh array object. -/
def execInstr (s : VMState) : Instr → StepResult VMState
  | .byteNum n => .next { s with stack := .vnum n :: s.stack }
  | .defineGlobal name =>
    match s.stack with
    | v :: rest =>
      .next { s with globals := (tableSet s.globals name v).2, stack := rest }
    | [] => .fail ("stack underflow")
  | .getGlobal name =>
    match tableGet s.globals name with
    | some v => .next { s with stack := v :: s.stack }
    | none => .fail ("Undefined variable '" ++ name ++ "'.")
  | .newArray argc =>
    let elems := (s.stack.take argc).reverse
    let ref := s.heap.arrays.length
    .next { s with
      stack := .varray ref :: s.stack.drop argc,
      heap := { s.heap with arrays := s.heap.arrays ++ [elems] } }
  | .subscriptGet _argc =>
    match s.stack with
    | idx :: arr :: rest =>
      match arr, idx with
      | .varray r, .vnum n =>
        if validIndex n (arrayCount s.heap r) then
          .next { s with
            stack := (s.heap.arrays.getD r []).getD n.toNat .vnil :: rest }
        else .fail ("Array index out of range")
      | .vstr str, .vnum n =>
        if validIndex n str.length then
          .next { s with stack := .vstr (strTake (String.mk (str.data.drop n.toNat)) 1) :: rest }
        else .fail ("String index out of range")
      | _, _ => .fail ("Can only subscript arrays and strings")
    | _ => .fail ("stack underflow")
  | .subscriptAssign _argc =>
    match s.stack with
    | v :: idx :: arr :: rest =>
      match arr, idx with
      | .varray r, .vnum n =>
        if validIndex n (arrayCount s.heap r) then
          let newArr := (s.heap.arrays.getD r []).set n.toNat v
          .next { s with
            stack := v :: rest,
            heap := { s.heap with arrays := s.heap.arrays.set r newArr } }
        else .fail ("Array index out of range")
      | _, _ => .fail ("Can only assign into arrays")
    | _ => .fail ("stack underflow")
  | .addOp =>
    match opAdd s.heap s.strings s.stack with
    | .next r => .next { s with strings := r.1, stack := r.2 }
    | .fail m => .fail m
  | .callOp argc =>
    match s.stack.getD argc .vnil with
    | .vnative name =>
      let args := (s.stack.take argc).reverse
      if name = "size" then
        match funSize s.heap args with
        | .next v => .next { s with stack := v :: s.stack.drop (argc + 1) }
        | .fail m => .fail m
      else .fail ("unknown native")
    | _ => .fail ("Can only call functions and classes.")
  | .printOp =>
    match s.stack with
    | v :: rest =>
      .next { s with
        stack := rest,
        output := s.output ++ [stringifyValue s.heap v] }
    | [] => .fail ("stack underflow")
  | .popOp =>
    match s.stack with
    | _ :: rest => .next { s with stack := rest }
    | [] => .fail ("stack underflow")

/-- The dispatch loop over a straight-line instruction sequence. -/
def execProgram (prog : List Instr) (s : VMState) : StepResult VMState :=
  match prog with
  | [] => .next s
  | i :: rest =>
    match execInstr s i with
    | .next s₂ => execProgram rest s₂
    | .fail m => .fail m

/-- The instruction sequence the compiler emits for
    `var a = [10, 20, 30]; a[1] = 99; print a[0] + a[1] + a[2];
    print size(a);` — array literal then DEFINE_GLOBAL; subscript
    assignment as an expression statement (trailing POP); the two print
    statements. -/
def arrayProgram : List Instr :=
  [ .byteNum 10, .byteNum 20, .byteNum 30, .newArray 3,
    .defineGlobal ("a"),
    .getGlobal ("a"), .byteNum 1, .byteNum 99, .subscriptAssign 1, .popOp,
    .getGlobal ("a"), .byteNum 0, .subscriptGet 1,
    .getGlobal ("a"), .byteNum 1, .subscriptGet 1, .addOp,
    .getGlobal ("a"), .byteNum 2, .subscriptGet 1, .addOp, .printOp,
    .getGlobal ("size"), .getGlobal ("a"), .callOp 1, .printOp ]

/-- The initial VM state: the globals table holds the registered natives
    (size is the one this program uses). -/
def initialState : VMState :=
  { stack := [],
    globals := [("size", .vnative ("size"))],
    heap := ⟨[], [], []⟩,
    strings := [],
    output := [] }

/-- The printed lines of a completed execution. -/
def outputOf (r : StepResult VMState) : Option (List String) :=
  match r with
  | .next s => some s.output
  | .fail _ => none

/-- C2: the array scenario executes through NEW_ARRAY, SUBSCRIPT_ASSIGN and
    SUBSCRIPT and prints "139" then "3"; and an out-of-range numeric index
    is a runtime error. -/
theorem C2_array_scenario :
    outputOf (execProgram arrayProgram initialState) =
      some ["139", "3"] ∧
    execProgram
      [ .byteNum 10, .byteNum 20, .byteNum 30, .newArray 3,
        .byteNum 3, .subscriptGet 1 ] initialState =
      .fail ("Array index out of range") := by
  refine ⟨by rfl, by rfl⟩

end Lox
